import Mathlib

/-!
Verification of `scripts/clean-menu-data.py` (SeekEatz repository).

The script filters restaurant menu items out of JSON files using two
heuristics (kids-menu name/category substring match, low-calorie threshold)
and generates SQL DELETE statements.  This file gives a shallow embedding of
the script's data model and logic and proves the specified properties.

Modelling conventions:
  * JSON menu items are records with optional `name`, `category` and `macros`
    fields (`item.get` with defaults in Python becomes `Option.getD`).
  * Calorie values are integers (`Int`), as the specification states.
  * Python's `str.lower` is modelled character-wise with `Char.toLower`
    (the data processed by the script is ASCII).
  * Python's substring test `pat in s` is modelled by the executable scan
    `hasSub`; `str.replace` by the left-to-right scan `pyReplaceChars`.
  * `KeyError` aborts are modelled with `Except`: the run either returns a
    result or an error string, mirroring the script's fatal-failure policy.
-/

/-- The single-quote character (U+0027), used in SQL escaping. -/
def squote : Char := Char.ofNat 39

/-- `strStarts p l` tests whether the character list `p` is an initial
segment of `l` (the core of Python's `str.startswith` / prefix matching). -/
def strStarts : List Char → List Char → Bool
  | [], _ => true
  | _ :: _, [] => false
  | a :: as, b :: bs => a == b && strStarts as bs

/-- `subSearch pat l` tests whether `pat` occurs as a contiguous
subsequence of `l`: Python's `pat in s` membership test on strings. -/
def subSearch (pat : List Char) : List Char → Bool
  | [] => strStarts pat []
  | c :: cs => strStarts pat (c :: cs) || subSearch pat cs

/-- `hasSub hay pat` models the Python expression `pat in hay`. -/
def hasSub (hay pat : String) : Bool :=
  subSearch pat.data hay.data

/-- Python `str.lower`, character-wise (ASCII). -/
def pyLower (s : String) : String :=
  String.mk (s.data.map Char.toLower)

/-- `macros` block of a menu item: `{"calories": <int>}`, the calories key
possibly absent. -/
structure Macros where
  calories : Option Int
deriving DecidableEq

/-- A menu item as read from JSON: `name`, `category` and `macros` keys, each
possibly absent (`item.get(..., default)` in the script). -/
structure MenuItem where
  name : Option String
  category : Option String
  macros : Option Macros
deriving DecidableEq

/-- `CALORIE_THRESHOLD = 100  # Remove items with calories <= this value`. -/
def CALORIE_THRESHOLD : Int := 100

/-- `kids_patterns = ['kid\'s', 'kids', 'kid ', 'children', 'kiddie']`. -/
def kidsPatterns : List String :=
  ["kid\x27s", "kids", "kid ", "children", "kiddie"]

/-- `name = item.get('name', '').lower()`. -/
def lowerName (item : MenuItem) : String :=
  pyLower (item.name.getD "")

/-- `category = item.get('category', '').lower()`. -/
def lowerCategory (item : MenuItem) : String :=
  pyLower (item.category.getD "")

/-- `calories = item.get('macros', {}).get('calories', 999)`. -/
def caloriesOf (item : MenuItem) : Int :=
  ((item.macros.getD { calories := none }).calories.getD 999)

/-- The rule-1 scan of `should_remove`:
`for pattern in kids_patterns: if pattern in name or pattern in category`.
The loop returns the same reason whichever pattern fires first, so it is the
disjunction over the pattern list. -/
def kidsMatch (item : MenuItem) : Bool :=
  kidsPatterns.any (fun p => hasSub (lowerName item) p || hasSub (lowerCategory item) p)

/-- `should_remove(item)` — returns `(should_remove : bool, reason : str)`.
Rule 1: kids patterns in name/category, reason `kids_item (cal=<calories>)`.
Rule 2: `calories <= CALORIE_THRESHOLD`, reason `low_cal (<calories> cal)`.
Otherwise `(False, "")`. -/
def shouldRemove (item : MenuItem) : Bool × String :=
  if kidsMatch item then
    (true, "kids_item (cal=" ++ toString (caloriesOf item) ++ ")")
  else if caloriesOf item ≤ CALORIE_THRESHOLD then
    (true, "low_cal (" ++ toString (caloriesOf item) ++ " cal)")
  else
    (false, "")

/-- Removal record accumulated in `all_removed_items`:
`{'restaurant_name': restaurant, 'name': item['name'], 'reason': reason}`. -/
structure RemovalRecord where
  restaurant_name : String
  name : String
  reason : String
deriving DecidableEq

/-- The per-file loop of `process_files`: classify each item, keep or record
removal.  Building a removal record reads `item['name']`, which raises
`KeyError` when the key is absent — modelled as an `Except.error`.  Returns
the kept items and the removal records, in original order. -/
def processItems (r : String) : List MenuItem → Except String (List MenuItem × List RemovalRecord)
  | [] => Except.ok ([], [])
  | item :: rest =>
    match shouldRemove item with
    | (true, reason) =>
      match item.name with
      | none => Except.error "KeyError: \x27name\x27"
      | some n =>
        match processItems r rest with
        | Except.error e => Except.error e
        | Except.ok (kept, recs) => Except.ok (kept, ⟨r, n, reason⟩ :: recs)
    | (false, _) =>
      match processItems r rest with
      | Except.error e => Except.error e
      | Except.ok (kept, recs) => Except.ok (item :: kept, recs)

/-- A menu JSON file: `restaurant_name` key (possibly absent, in which case
the script falls back to the file's basename) and the `items` list. -/
structure MenuFile where
  restaurant_name : Option String
  items : List MenuItem
deriving DecidableEq

/-- Processing of one file in `process_files`: classify all items; in apply
mode, when anything was removed, the file's `items` are replaced by the kept
sublist (`data['items'] = kept` followed by `json.dump`).  Returns the file's
new state, its removal records and whether the file was rewritten. -/
def processFile (apply : Bool) (basename : String) (mf : MenuFile) :
    Except String (MenuFile × List RemovalRecord × Bool) :=
  let restaurant := mf.restaurant_name.getD basename
  match processItems restaurant mf.items with
  | Except.error e => Except.error e
  | Except.ok (kept, recs) =>
    if apply && !recs.isEmpty then
      Except.ok ({ mf with items := kept }, recs, true)
    else
      Except.ok (mf, recs, false)

/-- The scan underlying Python's `str.replace(pat, rep)` for a non-empty
pattern `p :: ps`: left to right, replace each non-overlapping occurrence. -/
def pyReplaceChars (p : Char) (ps rep : List Char) : List Char → List Char
  | [] => []
  | c :: cs =>
    if strStarts (p :: ps) (c :: cs) then
      rep ++ pyReplaceChars p ps rep (List.drop ps.length cs)
    else
      c :: pyReplaceChars p ps rep cs
termination_by l => l.length
decreasing_by
  · simp only [List.length_cons]
    have := List.length_drop ps.length cs
    omega
  · simp

/-- `name.replace("'", "''")` — SQL escaping by doubling single quotes. -/
def sqlEscape (s : String) : String :=
  String.mk (pyReplaceChars squote [] [squote, squote] s.data)

/-- One condition of the kids-item DELETE:
`f"  (restaurant_name = '{escaped_restaurant}' AND name = '{escaped_name}')"`. -/
def condLine (r : RemovalRecord) : String :=
  "  (restaurant_name = \x27" ++ sqlEscape r.restaurant_name ++
    "\x27 AND name = \x27" ++ sqlEscape r.name ++ "\x27)"

/-- `kids_items = [i for i in all_removed_items if 'kids_item' in i['reason']]`. -/
def kidsRecs (recs : List RemovalRecord) : List RemovalRecord :=
  recs.filter (fun r => hasSub r.reason "kids_item")

/-- Python `sep.join(parts)`. -/
def pyJoin (sep : String) : List String → String
  | [] => ""
  | [c] => c
  | c :: cs => c ++ sep ++ pyJoin sep cs

/-- The SQL block printed to the console (the output of lines 113–135 of the
script), one `print` per line; conditions are joined with `" OR\n"`. -/
def consoleSql (recs : List RemovalRecord) : String :=
  let kids := kidsRecs recs
  "-- Delete kids menu items\n" ++
  (if kids.isEmpty then "-- No kids items found\n"
   else
     "DELETE FROM menu_items WHERE\n" ++
     pyJoin " OR\n" (kids.map condLine) ++ "\n" ++
     ";\n") ++
  "\n" ++
  "-- Delete low calorie / single ingredient items (<=100 cal)\n" ++
  "DELETE FROM menu_items\n" ++
  "WHERE (macros->>\x27calories\x27)::int <= " ++ toString CALORIE_THRESHOLD ++ ";\n" ++
  "\n" ++
  "-- Verify: Count remaining items\n" ++
  "SELECT COUNT(*) as remaining_items FROM menu_items;\n" ++
  "\n"

/-- The contents written to `cleanup_menu_items.sql`, one `f.write` chunk at a
time (lines 139–160 of the script). -/
def fileSql (recs : List RemovalRecord) (totalRemoved : Nat) : String :=
  let kids := kidsRecs recs
  "-- AUTO-GENERATED: Cleanup script for menu_items table\n" ++
  "-- Generated by clean-menu-data.py\n" ++
  "-- Items to remove: " ++ toString totalRemoved ++ "\n\n" ++
  "-- Step 1: Delete kids menu items by name\n" ++
  (if kids.isEmpty then ""
   else
     "DELETE FROM menu_items WHERE\n" ++
     pyJoin " OR\n" (kids.map condLine) ++ ";\n\n") ++
  "-- Step 2: Delete all items with calories <= " ++ toString CALORIE_THRESHOLD ++ "\n" ++
  "DELETE FROM menu_items\n" ++
  "WHERE (macros->>\x27calories\x27)::int <= " ++ toString CALORIE_THRESHOLD ++ ";\n\n" ++
  "-- Step 3: Verify remaining count\n" ++
  "SELECT COUNT(*) as remaining_items FROM menu_items;\n"

/-- A write effect performed by the script: a rewrite of a menu JSON file
(identified by its basename) with a new item list, or the write of the fixed
SQL output file `cleanup_menu_items.sql` with the given contents. -/
inductive WriteOp where
  | jsonWrite : String → List MenuItem → WriteOp
  | sqlWrite : String → WriteOp
deriving DecidableEq

/-- Whether a write effect targets a menu JSON file. -/
def WriteOp.isJson : WriteOp → Bool
  | WriteOp.jsonWrite _ _ => true
  | WriteOp.sqlWrite _ => false

/-- The per-file loop of `process_files` over all discovered files:
threads the accumulated removal records and the JSON write effects. -/
def goFiles (apply : Bool) : List (String × MenuFile) →
    Except String (List MenuFile × List RemovalRecord × List WriteOp)
  | [] => Except.ok ([], [], [])
  | (b, mf) :: rest =>
    match processFile apply b mf with
    | Except.error e => Except.error e
    | Except.ok (mf2, recs, wrote) =>
      match goFiles apply rest with
      | Except.error e => Except.error e
      | Except.ok (states, allRecs, ops) =>
        Except.ok (mf2 :: states, recs ++ allRecs,
          (if wrote then [WriteOp.jsonWrite b mf2.items] else []) ++ ops)

/-- `process_files`: process every file, then write the SQL file (always,
`total_removed` being the number of accumulated removal records).  Returns
the final file states and the list of write effects, in order. -/
def runFiles (apply : Bool) (files : List (String × MenuFile)) :
    Except String (List MenuFile × List WriteOp) :=
  match goFiles apply files with
  | Except.error e => Except.error e
  | Except.ok (states, allRecs, ops) =>
    Except.ok (states, ops ++ [WriteOp.sqlWrite (fileSql allRecs allRecs.length)])

/-- `Except.error` tester. -/
def isErr {α : Type} : Except String α → Bool
  | Except.error _ => true
  | Except.ok _ => false

/-- Specification-side escaping ("every single-quote character doubled, no
other transformation"): each character maps to itself, a single quote to two
single quotes. -/
def escapeSpec (s : String) : String :=
  String.mk (List.flatten (s.data.map (fun c => if c = squote then [squote, squote] else [c])))

/-- The chunks of `" OR\n".join(conditions)`: every condition but the last
carries a trailing `" OR"`. -/
def orLines : List String → List String
  | [] => []
  | [c] => [c]
  | c :: cs => (c ++ " OR") :: orLines cs

/-- Like `orLines`, but with the terminating `";"` fused onto the last
condition, as in the file version `f.write(" OR\n".join(conditions));
f.write(";\n\n")`. -/
def orLinesSemi : List String → List String
  | [] => []
  | [c] => [c ++ ";"]
  | c :: cs => (c ++ " OR") :: orLinesSemi cs

/-- Reassemble a chunk list into text, one newline after each chunk. -/
def joinLines : List String → String
  | [] => ""
  | l :: ls => l ++ "\n" ++ joinLines ls

/-- Concatenation of a chunk list. -/
def strJoin : List String → String
  | [] => ""
  | l :: ls => l ++ strJoin ls

/-- The console SQL block as its list of newline-terminated chunks. -/
def consoleSqlLines (recs : List RemovalRecord) : List String :=
  let kids := kidsRecs recs
  ["-- Delete kids menu items"] ++
  (if kids.isEmpty then ["-- No kids items found"]
   else "DELETE FROM menu_items WHERE" :: (orLines (kids.map condLine) ++ [";"])) ++
  ["",
   "-- Delete low calorie / single ingredient items (<=100 cal)",
   "DELETE FROM menu_items",
   "WHERE (macros->>\x27calories\x27)::int <= " ++ toString CALORIE_THRESHOLD ++ ";",
   "",
   "-- Verify: Count remaining items",
   "SELECT COUNT(*) as remaining_items FROM menu_items;",
   ""]

/-- The SQL file contents as a list of newline-terminated chunks. -/
def fileSqlLines (recs : List RemovalRecord) (totalRemoved : Nat) : List String :=
  let kids := kidsRecs recs
  ["-- AUTO-GENERATED: Cleanup script for menu_items table",
   "-- Generated by clean-menu-data.py",
   "-- Items to remove: " ++ toString totalRemoved,
   "",
   "-- Step 1: Delete kids menu items by name"] ++
  (if kids.isEmpty then []
   else "DELETE FROM menu_items WHERE" :: (orLinesSemi (kids.map condLine) ++ [""])) ++
  ["-- Step 2: Delete all items with calories <= " ++ toString CALORIE_THRESHOLD,
   "DELETE FROM menu_items",
   "WHERE (macros->>\x27calories\x27)::int <= " ++ toString CALORIE_THRESHOLD ++ ";",
   "",
   "-- Step 3: Verify remaining count",
   "SELECT COUNT(*) as remaining_items FROM menu_items;"]

/-- A chunk is an SQL comment when it begins with `--`. -/
def isCommentLine (l : String) : Bool :=
  strStarts ("--".data) l.data

/-- The SQL-statement content of a chunk list: drop comment chunks and
concatenate the rest (whitespace between statements is immaterial). -/
def sqlStatementText (ls : List String) : String :=
  strJoin (ls.filter (fun l => !isCommentLine l))

/-- The common shape of the generated SQL statements: the kids-item DELETE
(conditions joined with `OR`; omitted entirely when no kids items were
found), then the threshold DELETE with the JSON-field numeric cast, then the
verification `SELECT COUNT(*)`. -/
def sqlCanonical (recs : List RemovalRecord) : String :=
  (if (kidsRecs recs).isEmpty then ""
   else
     "DELETE FROM menu_items WHERE" ++
     pyJoin " OR" ((kidsRecs recs).map condLine) ++ ";") ++
  "DELETE FROM menu_items" ++
  ("WHERE (macros->>\x27calories\x27)::int <= " ++ toString CALORIE_THRESHOLD ++ ";") ++
  "SELECT COUNT(*) as remaining_items FROM menu_items;"

example :
    shouldRemove ⟨some "Kid\x27s Burger", none, some ⟨some 350⟩⟩ =
      (true, "kids_item (cal=350)") := by decide

example :
    shouldRemove ⟨some "Side of Fries", none, some ⟨some 80⟩⟩ =
      (true, "low_cal (80 cal)") := by decide

example :
    shouldRemove ⟨some "Grilled Chicken Bowl", none, some ⟨some 620⟩⟩ =
      (false, "") := by decide

/-- Rule-order variant of the classifier, stated from the spec's sentence on
rule order: the low-calorie rule is evaluated first, the kids rule second.
Used only to compare outcomes with `shouldRemove`. -/
def shouldRemoveSwapped (item : MenuItem) : Bool × String :=
  if caloriesOf item ≤ CALORIE_THRESHOLD then
    (true, "low_cal (" ++ toString (caloriesOf item) ++ " cal)")
  else if kidsMatch item then
    (true, "kids_item (cal=" ++ toString (caloriesOf item) ++ ")")
  else
    (false, "")

/-- C1: every item whose lower-cased name or category contains a kids
pattern is classified removed, with reason exactly
`kids_item (cal=<calories>)`, `<calories>` being the item's calorie value
(`999` when the macro block or the calories key is absent). -/
theorem C1_kids_item_reason (item : MenuItem) (h : kidsMatch item = true) :
    shouldRemove item =
      (true, "kids_item (cal=" ++ toString (caloriesOf item) ++ ")") := by
  simp [shouldRemove, h]

/-- Witness for C1 at the item `{name: "Kid's Burger", calories: 350}`. -/
theorem C1_kids_item_reason_witness :
    kidsMatch ⟨some "Kid\x27s Burger", none, some ⟨some 350⟩⟩ = true ∧
    shouldRemove ⟨some "Kid\x27s Burger", none, some ⟨some 350⟩⟩ =
      (true, "kids_item (cal=" ++
        toString (caloriesOf ⟨some "Kid\x27s Burger", none, some ⟨some 350⟩⟩) ++ ")") :=
  ⟨by decide, C1_kids_item_reason _ (by decide)⟩

/-- C2: an item matching no kids pattern whose calorie value is at most 100
is classified removed with reason exactly `low_cal (<calories> cal)`. -/
theorem C2_low_cal_reason (item : MenuItem) (h1 : kidsMatch item = false)
    (h2 : caloriesOf item ≤ CALORIE_THRESHOLD) :
    shouldRemove item =
      (true, "low_cal (" ++ toString (caloriesOf item) ++ " cal)") := by
  simp [shouldRemove, h1, h2]

/-- Witness for C2 at the item `{name: "Side of Fries", calories: 80}`. -/
theorem C2_low_cal_reason_witness :
    kidsMatch ⟨some "Side of Fries", none, some ⟨some 80⟩⟩ = false ∧
    caloriesOf ⟨some "Side of Fries", none, some ⟨some 80⟩⟩ ≤ CALORIE_THRESHOLD ∧
    shouldRemove ⟨some "Side of Fries", none, some ⟨some 80⟩⟩ =
      (true, "low_cal (" ++
        toString (caloriesOf ⟨some "Side of Fries", none, some ⟨some 80⟩⟩) ++ " cal)") :=
  ⟨by decide, by decide, C2_low_cal_reason _ (by decide) (by decide)⟩

/-- C3: the removal decision is exactly the disjunction of the kids-pattern
predicate and the calorie-threshold predicate; an item satisfying neither is
returned as `(false, "")`; and evaluating the two rules in the opposite
order changes at most the reason string, never the boolean outcome. -/
theorem C3_decision_disjunction (item : MenuItem) :
    (shouldRemove item).fst =
      (kidsMatch item || decide (caloriesOf item ≤ CALORIE_THRESHOLD)) ∧
    (shouldRemoveSwapped item).fst = (shouldRemove item).fst ∧
    (shouldRemove item = (false, "") ∨ (shouldRemove item).fst = true) := by
  by_cases hc : caloriesOf item ≤ CALORIE_THRESHOLD <;>
    cases hk : kidsMatch item <;>
      simp [shouldRemove, shouldRemoveSwapped, hk, hc]

/-- C4: when the macro block or its calories key is absent, the calorie
value defaults to the sentinel `999`, which is above the threshold, so the
item is never given a `low_cal` reason: its removal decision coincides with
the kids-pattern predicate and its reason never starts with `low_cal`. -/
theorem C4_missing_macros_sentinel (item : MenuItem)
    (h : item.macros = none ∨ ∃ m, item.macros = some m ∧ m.calories = none) :
    caloriesOf item = 999 ∧
    CALORIE_THRESHOLD < 999 ∧
    (shouldRemove item).fst = kidsMatch item ∧
    strStarts ("low_cal".data) ((shouldRemove item).snd).data = false := by
  have hc : caloriesOf item = 999 := by
    rcases h with h | ⟨m, hm, hcal⟩
    · simp [caloriesOf, h]
    · simp [caloriesOf, hm, hcal]
  refine ⟨hc, by decide, ?_, ?_⟩
  · cases hk : kidsMatch item <;> simp [shouldRemove, hk, hc, CALORIE_THRESHOLD]
  · cases hk : kidsMatch item <;> simp [shouldRemove, hk, hc, CALORIE_THRESHOLD] <;> decide

/-- Witness for C4 at an item with no macro block. -/
theorem C4_missing_macros_sentinel_witness :
    (MenuItem.macros ⟨some "Steak", none, none⟩ = none ∨
      ∃ m, MenuItem.macros ⟨some "Steak", none, none⟩ = some m ∧ m.calories = none) ∧
    (caloriesOf ⟨some "Steak", none, none⟩ = 999 ∧
     CALORIE_THRESHOLD < 999 ∧
     (shouldRemove ⟨some "Steak", none, none⟩).fst = kidsMatch ⟨some "Steak", none, none⟩ ∧
     strStarts ("low_cal".data) ((shouldRemove ⟨some "Steak", none, none⟩).snd).data = false) :=
  ⟨Or.inl rfl, C4_missing_macros_sentinel _ (Or.inl rfl)⟩

/-- On success, the kept list returned by the per-file loop is exactly the
original list filtered by the keep decision of the classifier. -/
theorem processItems_ok_filter (r : String) :
    ∀ (items kept : List MenuItem) (recs : List RemovalRecord),
      processItems r items = Except.ok (kept, recs) →
      kept = items.filter (fun i => !(shouldRemove i).fst) := by
  intro items
  induction items with
  | nil =>
    intro kept recs h
    simp [processItems] at h
    simp [h.1]
  | cons item rest ih =>
    intro kept recs h
    rcases hsr : shouldRemove item with ⟨b, reason⟩
    cases b with
    | true =>
      cases hn : item.name with
      | none => simp [processItems, hsr, hn] at h
      | some n =>
        cases hrec : processItems r rest with
        | error e => simp [processItems, hsr, hn, hrec] at h
        | ok pr =>
          obtain ⟨k2, r2⟩ := pr
          simp only [processItems, hsr, hn, hrec] at h
          obtain ⟨hk, -⟩ := Prod.mk.injEq .. ▸ (Except.ok.injEq .. ▸ h)
          simp [List.filter_cons, hsr, ← hk, ih k2 r2 hrec]
    | false =>
      cases hrec : processItems r rest with
      | error e => simp [processItems, hsr, hrec] at h
      | ok pr =>
        obtain ⟨k2, r2⟩ := pr
        simp only [processItems, hsr, hrec] at h
        obtain ⟨hk, -⟩ := Prod.mk.injEq .. ▸ (Except.ok.injEq .. ▸ h)
        simp [List.filter_cons, hsr, ← hk, ih k2 r2 hrec]

/-- A list consisting solely of keep-classified items passes through the
per-file loop unchanged, producing no removal records. -/
theorem processItems_all_keep (r : String) :
    ∀ (items : List MenuItem), (∀ i ∈ items, (shouldRemove i).fst = false) →
      processItems r items = Except.ok (items, []) := by
  intro items
  induction items with
  | nil => intro _; rfl
  | cons item rest ih =>
    intro h
    rcases hsr : shouldRemove item with ⟨b, reason⟩
    have hb : b = false := by
      have := h item (List.mem_cons_self ..)
      rw [hsr] at this
      exact this
    subst hb
    have := ih (fun i hi => h i (List.mem_cons_of_mem _ hi))
    simp [processItems, hsr, this]

/-- On success with no removal records, every input item was classified
keep. -/
theorem processItems_recs_nil_keep (r : String) :
    ∀ (items kept : List MenuItem),
      processItems r items = Except.ok (kept, []) →
      ∀ i ∈ items, (shouldRemove i).fst = false := by
  intro items
  induction items with
  | nil => intro kept _ i hi; cases hi
  | cons item rest ih =>
    intro kept h i hi
    rcases hsr : shouldRemove item with ⟨b, reason⟩
    cases b with
    | true =>
      cases hn : item.name with
      | none => simp [processItems, hsr, hn] at h
      | some n =>
        cases hrec : processItems r rest with
        | error e => simp [processItems, hsr, hn, hrec] at h
        | ok pr => simp [processItems, hsr, hn, hrec] at h
    | false =>
      cases hrec : processItems r rest with
      | error e => simp [processItems, hsr, hrec] at h
      | ok pr =>
        obtain ⟨k2, r2⟩ := pr
        simp only [processItems, hsr, hrec] at h
        have hr2 : r2 = [] := by
          have := (Except.ok.injEq .. ▸ h)
          exact (Prod.mk.injEq .. ▸ this).2
        rcases List.mem_cons.mp hi with hi | hi
        · subst hi; rw [hsr]
        · exact ih k2 (by rw [hrec, hr2]) i hi

/-- C5: in apply mode, the item list a file ends up with is exactly the
original list filtered to the keep-classified items — removed items are
absent, kept items are present unmodified, relative order is preserved (the
result is a sublist of the original), and no other field changes. -/
theorem C5_apply_writes_filtered (b : String) (mf mf2 : MenuFile)
    (recs : List RemovalRecord) (wrote : Bool)
    (h : processFile true b mf = Except.ok (mf2, recs, wrote)) :
    mf2.restaurant_name = mf.restaurant_name ∧
    mf2.items = mf.items.filter (fun i => !(shouldRemove i).fst) ∧
    mf2.items.Sublist mf.items := by
  simp only [processFile] at h
  cases hp : processItems (mf.restaurant_name.getD b) mf.items with
  | error e => rw [hp] at h; cases h
  | ok pr =>
    obtain ⟨kept, rcs⟩ := pr
    rw [hp] at h
    have hkept := processItems_ok_filter _ _ _ _ hp
    cases hre : rcs.isEmpty with
    | false =>
      simp only [hre, Bool.not_false, Bool.and_true, if_true] at h
      have hmf2 : mf2 = { mf with items := kept } := by
        have := (Except.ok.injEq .. ▸ h)
        exact (Prod.mk.injEq .. ▸ this).1.symm
      subst hmf2
      exact ⟨rfl, hkept, hkept ▸ List.filter_sublist _⟩
    | true =>
      simp only [hre, Bool.not_true, Bool.and_false, if_false] at h
      have hmf2 : mf2 = mf := by
        have := (Except.ok.injEq .. ▸ h)
        exact (Prod.mk.injEq .. ▸ this).1.symm
      have hrcs : rcs = [] := List.isEmpty_iff.mp hre
      have hall : ∀ i ∈ mf.items, (shouldRemove i).fst = false :=
        processItems_recs_nil_keep (mf.restaurant_name.getD b) mf.items kept
          (by rw [hp, hrcs])
      have hfeq : mf.items.filter (fun i => !(shouldRemove i).fst) = mf.items :=
        List.filter_eq_self.mpr (fun i hi => by simp [hall i hi])
      rw [hmf2]
      exact ⟨rfl, hfeq.symm, List.Sublist.refl _⟩

/-- Witness for C5: a file holding one kids item and one ordinary item. -/
theorem C5_apply_writes_filtered_witness :
    processFile true "x_raw.json"
        ⟨some "R", [⟨some "Kids Meal", none, some ⟨some 300⟩⟩,
                    ⟨some "Bowl", none, some ⟨some 500⟩⟩]⟩ =
      Except.ok (⟨some "R", [⟨some "Bowl", none, some ⟨some 500⟩⟩]⟩,
        [⟨"R", "Kids Meal", "kids_item (cal=300)"⟩], true) ∧
    ((⟨some "R", [⟨some "Bowl", none, some ⟨some 500⟩⟩]⟩ : MenuFile).restaurant_name =
        (⟨some "R", [⟨some "Kids Meal", none, some ⟨some 300⟩⟩,
                     ⟨some "Bowl", none, some ⟨some 500⟩⟩]⟩ : MenuFile).restaurant_name ∧
      (⟨some "R", [⟨some "Bowl", none, some ⟨some 500⟩⟩]⟩ : MenuFile).items =
        (⟨some "R", [⟨some "Kids Meal", none, some ⟨some 300⟩⟩,
                     ⟨some "Bowl", none, some ⟨some 500⟩⟩]⟩ : MenuFile).items.filter
          (fun i => !(shouldRemove i).fst) ∧
      (⟨some "R", [⟨some "Bowl", none, some ⟨some 500⟩⟩]⟩ : MenuFile).items.Sublist
        (⟨some "R", [⟨some "Kids Meal", none, some ⟨some 300⟩⟩,
                     ⟨some "Bowl", none, some ⟨some 500⟩⟩]⟩ : MenuFile).items) :=
  ⟨rfl,
    C5_apply_writes_filtered "x_raw.json"
      ⟨some "R", [⟨some "Kids Meal", none, some ⟨some 300⟩⟩,
                  ⟨some "Bowl", none, some ⟨some 500⟩⟩]⟩
      ⟨some "R", [⟨some "Bowl", none, some ⟨some 500⟩⟩]⟩
      [⟨"R", "Kids Meal", "kids_item (cal=300)"⟩] true rfl⟩

/-- C6: a second pass is a no-op — the kept list produced by one successful
pass consists of keep-classified items only, so running the filter on it
returns it unchanged with no removals. -/
theorem C6_second_pass_no_removals (r : String) (items kept : List MenuItem)
    (recs : List RemovalRecord)
    (h : processItems r items = Except.ok (kept, recs)) :
    processItems r kept = Except.ok (kept, []) := by
  have hk := processItems_ok_filter r items kept recs h
  subst hk
  refine processItems_all_keep r _ (fun i hi => ?_)
  have := (List.mem_filter.mp hi).2
  simpa using this

/-- Witness for C6: one pass over a two-item list, then the second pass. -/
theorem C6_second_pass_no_removals_witness :
    processItems "R" [⟨some "Fries", none, some ⟨some 80⟩⟩,
                      ⟨some "Bowl", none, some ⟨some 500⟩⟩] =
      Except.ok ([⟨some "Bowl", none, some ⟨some 500⟩⟩],
        [⟨"R", "Fries", "low_cal (80 cal)"⟩]) ∧
    processItems "R" [⟨some "Bowl", none, some ⟨some 500⟩⟩] =
      Except.ok ([⟨some "Bowl", none, some ⟨some 500⟩⟩], []) :=
  ⟨rfl,
    C6_second_pass_no_removals "R"
      [⟨some "Fries", none, some ⟨some 80⟩⟩, ⟨some "Bowl", none, some ⟨some 500⟩⟩]
      [⟨some "Bowl", none, some ⟨some 500⟩⟩]
      [⟨"R", "Fries", "low_cal (80 cal)"⟩] rfl⟩

/-- C10: an item classified for removal whose `name` key is absent aborts
the whole per-file run with a `KeyError` when its removal record is built,
wherever it sits in the item list — even though the classifier itself
tolerated the missing name. -/
theorem C10_missing_name_aborts (r : String) (pre post : List MenuItem)
    (item : MenuItem) (h1 : item.name = none)
    (h2 : (shouldRemove item).fst = true) :
    isErr (processItems r (pre ++ item :: post)) = true := by
  induction pre with
  | nil =>
    rcases hsr : shouldRemove item with ⟨b, reason⟩
    have hb : b = true := by rw [hsr] at h2; exact h2
    subst hb
    simp [processItems, hsr, h1, isErr]
  | cons p pre ih =>
    rw [List.cons_append]
    rcases hsp : shouldRemove p with ⟨bp, rp⟩
    cases bp with
    | false =>
      cases hr : processItems r (pre ++ item :: post) with
      | error e => simp [processItems, hsp, hr, isErr]
      | ok pr => rw [hr] at ih; simp [isErr] at ih
    | true =>
      cases hn : p.name with
      | none => simp [processItems, hsp, hn, isErr]
      | some n =>
        cases hr : processItems r (pre ++ item :: post) with
        | error e => simp [processItems, hsp, hn, hr, isErr]
        | ok pr => rw [hr] at ih; simp [isErr] at ih

/-- Witness for C10: a nameless 50-calorie item is classified removed, and
processing a list containing it errors out. -/
theorem C10_missing_name_aborts_witness :
    MenuItem.name ⟨none, none, some ⟨some 50⟩⟩ = none ∧
    (shouldRemove ⟨none, none, some ⟨some 50⟩⟩).fst = true ∧
    isErr (processItems "R" ([] ++ (⟨none, none, some ⟨some 50⟩⟩ : MenuItem) :: [])) = true :=
  ⟨rfl, rfl, C10_missing_name_aborts "R" [] [] ⟨none, none, some ⟨some 50⟩⟩ rfl rfl⟩

/-- In dry-run mode the per-file loop leaves every file state unchanged and
performs no JSON write. -/
theorem goFiles_dryrun :
    ∀ (files : List (String × MenuFile)) (st : List MenuFile)
      (recs : List RemovalRecord) (ops : List WriteOp),
      goFiles false files = Except.ok (st, recs, ops) →
      st = files.map Prod.snd ∧ ops = [] := by
  intro files
  induction files with
  | nil =>
    intro st recs ops h
    simp [goFiles] at h
    simp [h.1, h.2.2]
  | cons f rest ih =>
    intro st recs ops h
    obtain ⟨b, mf⟩ := f
    cases hpf : processFile false b mf with
    | error e => simp [goFiles, hpf] at h
    | ok res =>
      obtain ⟨mf2, rcs, wrote⟩ := res
      have hnw : mf2 = mf ∧ wrote = false := by
        simp only [processFile] at hpf
        cases hpi : processItems (mf.restaurant_name.getD b) mf.items with
        | error e => rw [hpi] at hpf; cases hpf
        | ok pr =>
          obtain ⟨kept, rc⟩ := pr
          rw [hpi] at hpf
          simp only [Bool.false_and, if_false] at hpf
          have := (Except.ok.injEq .. ▸ hpf)
          refine ⟨(Prod.mk.injEq .. ▸ this).1.symm, ?_⟩
          have h2 := (Prod.mk.injEq .. ▸ this).2
          exact ((Prod.mk.injEq .. ▸ h2).2).symm
      cases hg : goFiles false rest with
      | error e => simp [goFiles, hpf, hg] at h
      | ok res2 =>
        obtain ⟨st2, recs2, ops2⟩ := res2
        obtain ⟨hst2, hops2⟩ := ih st2 recs2 ops2 hg
        simp only [goFiles, hpf, hg] at h
        have := (Except.ok.injEq .. ▸ h)
        have hst := (Prod.mk.injEq .. ▸ this).1
        have hrest := (Prod.mk.injEq .. ▸ this).2
        have hops := (Prod.mk.injEq .. ▸ hrest).2
        rw [← hst, ← hops, hnw.1, hnw.2, hst2, hops2]
        simp

/-- C7 counterexample: at the concrete input of a dry-run over no files, the
run still performs a write — the fixed SQL output file is written — so
"no file write is performed" fails as stated. -/
theorem C7_dryrun_counterexample :
    runFiles false [] = Except.ok ([], [WriteOp.sqlWrite (fileSql [] 0)]) ∧
    ([WriteOp.sqlWrite (fileSql [] 0)] : List WriteOp) ≠ [] :=
  ⟨rfl, by simp⟩

/-- C7 (amended): in dry-run mode no menu JSON file is written — every
file's contents are unchanged by the run — and the only write effect is the
single write of the fixed SQL output file. -/
theorem C7_dryrun_no_json_writes (files : List (String × MenuFile))
    (states : List MenuFile) (ops : List WriteOp)
    (h : runFiles false files = Except.ok (states, ops)) :
    states = files.map Prod.snd ∧
    (∀ op ∈ ops, op.isJson = false) ∧
    ∃ s, ops = [WriteOp.sqlWrite s] := by
  simp only [runFiles] at h
  cases hg : goFiles false files with
  | error e => rw [hg] at h; cases h
  | ok res =>
    obtain ⟨st, recs, wops⟩ := res
    rw [hg] at h
    obtain ⟨hst, hwops⟩ := goFiles_dryrun files st recs wops hg
    have := (Except.ok.injEq .. ▸ h)
    have h1 := (Prod.mk.injEq .. ▸ this).1
    have h2 := (Prod.mk.injEq .. ▸ this).2
    refine ⟨by rw [← h1, hst], ?_, ?_⟩
    · intro op hop
      rw [← h2, hwops] at hop
      simp only [List.nil_append, List.mem_singleton] at hop
      rw [hop]
      rfl
    · exact ⟨fileSql recs recs.length, by rw [← h2, hwops]; simp⟩

/-- Witness for C7 (amended): a dry run over one file containing a removable
item rewrites nothing and emits only the SQL file write. -/
theorem C7_dryrun_no_json_writes_witness :
    runFiles false [("a_raw.json", ⟨some "A", [⟨some "Kids Meal", none, some ⟨some 300⟩⟩]⟩)] =
      Except.ok ([⟨some "A", [⟨some "Kids Meal", none, some ⟨some 300⟩⟩]⟩],
        [WriteOp.sqlWrite (fileSql [⟨"A", "Kids Meal", "kids_item (cal=300)"⟩] 1)]) ∧
    ([⟨some "A", [⟨some "Kids Meal", none, some ⟨some 300⟩⟩]⟩] : List MenuFile) =
      ([("a_raw.json", (⟨some "A", [⟨some "Kids Meal", none, some ⟨some 300⟩⟩]⟩ : MenuFile))].map
        Prod.snd) ∧
    (∀ op ∈ ([WriteOp.sqlWrite (fileSql [⟨"A", "Kids Meal", "kids_item (cal=300)"⟩] 1)] :
        List WriteOp), op.isJson = false) ∧
    ∃ s, ([WriteOp.sqlWrite (fileSql [⟨"A", "Kids Meal", "kids_item (cal=300)"⟩] 1)] :
        List WriteOp) = [WriteOp.sqlWrite s] :=
  ⟨rfl,
    C7_dryrun_no_json_writes
      [("a_raw.json", ⟨some "A", [⟨some "Kids Meal", none, some ⟨some 300⟩⟩]⟩)]
      [⟨some "A", [⟨some "Kids Meal", none, some ⟨some 300⟩⟩]⟩]
      [WriteOp.sqlWrite (fileSql [⟨"A", "Kids Meal", "kids_item (cal=300)"⟩] 1)] rfl⟩

/-- The left-to-right replace scan for the single-quote pattern doubles each
single quote and leaves every other character untouched. -/
theorem pyReplaceChars_squote (l : List Char) :
    pyReplaceChars squote [] [squote, squote] l =
      List.flatten (l.map (fun c => if c = squote then [squote, squote] else [c])) := by
  induction l with
  | nil => rw [pyReplaceChars]; rfl
  | cons c cs ih =>
    rw [pyReplaceChars]
    by_cases hc : c = squote
    · subst hc
      simp [strStarts, ih]
    · have : (squote == c) = false := by
        simp [beq_iff_eq]
        exact fun h => hc h.symm
      simp [strStarts, this, hc, ih]

/-- `sqlEscape` agrees with the specification-side character-wise escaping. -/
theorem sqlEscape_eq_escapeSpec (s : String) : sqlEscape s = escapeSpec s := by
  rw [sqlEscape, escapeSpec, pyReplaceChars_squote]

/-- C9: every removal record is embedded in the kids-item DELETE with its
restaurant name and item name transformed exactly by doubling each single
quote — character for character, nothing else changes. -/
theorem C9_escaping_doubles_quotes (r : RemovalRecord) :
    condLine r =
      "  (restaurant_name = \x27" ++ escapeSpec r.restaurant_name ++
        "\x27 AND name = \x27" ++ escapeSpec r.name ++ "\x27)" ∧
    escapeSpec r.name =
      String.mk (List.flatten (r.name.data.map
        (fun c => if c = squote then [squote, squote] else [c]))) := by
  constructor
  · rw [condLine, sqlEscape_eq_escapeSpec, sqlEscape_eq_escapeSpec]
  · rfl

/-- `joinLines` distributes over list concatenation. -/
theorem joinLines_append (xs ys : List String) :
    joinLines (xs ++ ys) = joinLines xs ++ joinLines ys := by
  induction xs with
  | nil => simp [joinLines]
  | cons x xs ih => simp [joinLines, ih, String.append_assoc]

/-- `strJoin` distributes over list concatenation. -/
theorem strJoin_append (xs ys : List String) :
    strJoin (xs ++ ys) = strJoin xs ++ strJoin ys := by
  induction xs with
  | nil => simp [strJoin]
  | cons x xs ih => simp [strJoin, ih, String.append_assoc]

/-- Reassembling the `orLines` chunks with newlines yields exactly the
`" OR\n"`-joined conditions followed by a newline. -/
theorem joinLines_orLines (c : String) (cs : List String) :
    joinLines (orLines (c :: cs)) = pyJoin " OR\n" (c :: cs) ++ "\n" := by
  induction cs generalizing c with
  | nil => simp [orLines, joinLines, pyJoin, String.append_empty]
  | cons c2 cs ih =>
    show joinLines ((c ++ " OR") :: orLines (c2 :: cs)) = _
    rw [joinLines, ih c2]
    show c ++ " OR" ++ "\n" ++ _ = c ++ " OR\n" ++ _ ++ "\n"
    apply String.ext
    simp only [String.data_append, List.append_assoc]
    rfl

/-- Reassembling the `orLinesSemi` chunks (plus the following blank line)
yields the `" OR\n"`-joined conditions followed by `";\n\n"`. -/
theorem joinLines_orLinesSemi (c : String) (cs : List String) :
    joinLines (orLinesSemi (c :: cs) ++ [""]) =
      pyJoin " OR\n" (c :: cs) ++ ";\n\n" := by
  induction cs generalizing c with
  | nil =>
    show joinLines [c ++ ";", ""] = c ++ ";\n\n"
    rw [joinLines, joinLines, joinLines]
    apply String.ext
    simp only [String.data_append, List.append_assoc]
    rfl
  | cons c2 cs ih =>
    show joinLines ((c ++ " OR") :: (orLinesSemi (c2 :: cs) ++ [""])) = _
    rw [joinLines, ih c2]
    show c ++ " OR" ++ "\n" ++ _ = c ++ " OR\n" ++ _ ++ ";\n\n"
    apply String.ext
    simp only [String.data_append, List.append_assoc]
    rfl

/-- Concatenating the `orLines` chunks gives the `" OR"`-joined conditions. -/
theorem strJoin_orLines (c : String) (cs : List String) :
    strJoin (orLines (c :: cs)) = pyJoin " OR" (c :: cs) := by
  induction cs generalizing c with
  | nil => simp [orLines, strJoin, pyJoin, String.append_empty]
  | cons c2 cs ih =>
    show strJoin ((c ++ " OR") :: orLines (c2 :: cs)) = _
    rw [strJoin, ih c2]
    show c ++ " OR" ++ _ = c ++ " OR" ++ _
    rfl

/-- Concatenating the `orLinesSemi` chunks gives the `" OR"`-joined
conditions followed by the terminating semicolon. -/
theorem strJoin_orLinesSemi (c : String) (cs : List String) :
    strJoin (orLinesSemi (c :: cs)) = pyJoin " OR" (c :: cs) ++ ";" := by
  induction cs generalizing c with
  | nil =>
    show strJoin [c ++ ";"] = c ++ ";"
    simp [strJoin, String.append_empty]
  | cons c2 cs ih =>
    show strJoin ((c ++ " OR") :: orLinesSemi (c2 :: cs)) = _
    rw [strJoin, ih c2]
    show c ++ " OR" ++ (pyJoin " OR" (c2 :: cs) ++ ";") =
      c ++ " OR" ++ pyJoin " OR" (c2 :: cs) ++ ";"
    apply String.ext
    simp only [String.data_append, List.append_assoc]

/-- Any string starting with the condition-line prefix is not a comment. -/
theorem isCommentLine_condPrefix (t : String) :
    isCommentLine ("  (restaurant_name = \x27" ++ t) = false := by
  unfold isCommentLine
  rw [String.data_append]
  rfl

/-- A condition line is never an SQL comment. -/
theorem isCommentLine_condLine (r : RemovalRecord) :
    isCommentLine (condLine r) = false := by
  rw [condLine]
  simp only [String.append_assoc]
  exact isCommentLine_condPrefix _

/-- A condition line with any suffix is never an SQL comment. -/
theorem isCommentLine_condLine_append (r : RemovalRecord) (s : String) :
    isCommentLine (condLine r ++ s) = false := by
  rw [condLine]
  simp only [String.append_assoc]
  exact isCommentLine_condPrefix _

/-- Every chunk of `orLines cs` is an element of `cs` or one with `" OR"`
appended. -/
theorem mem_orLines (cs : List String) (l : String) (h : l ∈ orLines cs) :
    ∃ c ∈ cs, l = c ∨ l = c ++ " OR" := by
  induction cs with
  | nil => cases h
  | cons c cs ih =>
    cases cs with
    | nil =>
      rw [show orLines [c] = [c] from rfl] at h
      exact ⟨c, List.mem_singleton_self c, Or.inl (List.mem_singleton.mp h)⟩
    | cons c2 cs2 =>
      rw [show orLines (c :: c2 :: cs2) = (c ++ " OR") :: orLines (c2 :: cs2) from rfl] at h
      rcases List.mem_cons.mp h with h | h
      · exact ⟨c, List.mem_cons_self .., Or.inr h⟩
      · obtain ⟨c3, hc3, hl⟩ := ih h
        exact ⟨c3, List.mem_cons_of_mem _ hc3, hl⟩

/-- Every chunk of `orLinesSemi cs` is an element of `cs` with `";"` or
`" OR"` appended. -/
theorem mem_orLinesSemi (cs : List String) (l : String) (h : l ∈ orLinesSemi cs) :
    ∃ c ∈ cs, l = c ++ ";" ∨ l = c ++ " OR" := by
  induction cs with
  | nil => cases h
  | cons c cs ih =>
    cases cs with
    | nil =>
      rw [show orLinesSemi [c] = [c ++ ";"] from rfl] at h
      exact ⟨c, List.mem_singleton_self c, Or.inl (List.mem_singleton.mp h)⟩
    | cons c2 cs2 =>
      rw [show orLinesSemi (c :: c2 :: cs2) = (c ++ " OR") :: orLinesSemi (c2 :: cs2) from rfl] at h
      rcases List.mem_cons.mp h with h | h
      · exact ⟨c, List.mem_cons_self .., Or.inr h⟩
      · obtain ⟨c3, hc3, hl⟩ := ih h
        exact ⟨c3, List.mem_cons_of_mem _ hc3, hl⟩

/-- No chunk of the `orLines` of condition lines is a comment, so the
comment filter keeps all of them. -/
theorem filter_orLines_condLine (ks : List RemovalRecord) :
    (orLines (ks.map condLine)).filter (fun l => !isCommentLine l) =
      orLines (ks.map condLine) := by
  apply List.filter_eq_self.mpr
  intro a ha
  obtain ⟨c, hc, heq⟩ := mem_orLines _ _ ha
  obtain ⟨r, -, rfl⟩ := List.mem_map.mp hc
  rcases heq with rfl | rfl
  · simp [isCommentLine_condLine]
  · simp [isCommentLine_condLine_append]

/-- No chunk of the `orLinesSemi` of condition lines is a comment, so the
comment filter keeps all of them. -/
theorem filter_orLinesSemi_condLine (ks : List RemovalRecord) :
    (orLinesSemi (ks.map condLine)).filter (fun l => !isCommentLine l) =
      orLinesSemi (ks.map condLine) := by
  apply List.filter_eq_self.mpr
  intro a ha
  obtain ⟨c, hc, heq⟩ := mem_orLinesSemi _ _ ha
  obtain ⟨r, -, rfl⟩ := List.mem_map.mp hc
  rcases heq with rfl | rfl
  · simp [isCommentLine_condLine_append]
  · simp [isCommentLine_condLine_append]

/-- A pattern is found at the head of any list it prefixes. -/
theorem strStarts_self_append (p rest : List Char) :
    strStarts p (p ++ rest) = true := by
  induction p with
  | nil => rfl
  | cons a as ih => simp [strStarts, ih]

/-- A prefix match is in particular a substring match. -/
theorem subSearch_of_strStarts (p l : List Char) (h : strStarts p l = true) :
    subSearch p l = true := by
  cases l with
  | nil => exact h
  | cons c cs => simp [subSearch, h]

/-- Substring search succeeds under any left extension. -/
theorem subSearch_append_left (xs : List Char) (p l : List Char)
    (h : subSearch p l = true) : subSearch p (xs ++ l) = true := by
  induction xs with
  | nil => exact h
  | cons x xs ih => simp [subSearch, ih]

/-- `hasSub` finds a pattern sitting at the start of the right summand. -/
theorem hasSub_append (a p rest : String) :
    hasSub (a ++ (p ++ rest)) p = true := by
  unfold hasSub
  rw [String.data_append, String.data_append]
  exact subSearch_append_left _ _ _
    (subSearch_of_strStarts _ _ (strStarts_self_append _ _))
/-- The SQL statements printed to the console, with comments dropped, are
exactly the canonical statement text. -/
theorem sqlStatementText_console (recs : List RemovalRecord) :
    sqlStatementText (consoleSqlLines recs) = sqlCanonical recs := by
  cases h : kidsRecs recs with
  | nil =>
    simp only [sqlStatementText, consoleSqlLines, sqlCanonical, h]
    rfl
  | cons k ks =>
    simp only [sqlStatementText, consoleSqlLines, sqlCanonical, h, List.map_cons,
      List.isEmpty_cons, Bool.false_eq_true, if_false, List.cons_append,
      List.nil_append, List.append_assoc]
    rw [List.filter_cons_of_neg (by decide), List.filter_cons_of_pos (by decide),
      List.filter_append]
    have hfo := filter_orLines_condLine (k :: ks)
    rw [List.map_cons] at hfo
    rw [hfo, strJoin, strJoin_append, strJoin_orLines]
    apply String.ext
    simp only [String.data_append, List.append_assoc]
    rfl
/-- The comment detector accepts the variable header comment of the SQL
file. -/
theorem isCommentLine_header (t : String) :
    isCommentLine ("-- Items to remove: " ++ t) = true := by
  unfold isCommentLine
  rw [String.data_append]
  rfl

/-- The SQL statements written to the output file, with comments dropped,
are exactly the canonical statement text. -/
theorem sqlStatementText_file (recs : List RemovalRecord) (n : Nat) :
    sqlStatementText (fileSqlLines recs n) = sqlCanonical recs := by
  cases h : kidsRecs recs with
  | nil =>
    simp only [sqlStatementText, fileSqlLines, sqlCanonical, h, List.isEmpty_nil,
      if_true, List.cons_append, List.nil_append, List.append_assoc]
    rw [List.filter_cons_of_neg (by decide), List.filter_cons_of_neg (by decide),
      List.filter_cons_of_neg (by simp [isCommentLine_header]),
      List.filter_cons_of_pos (by decide), List.filter_cons_of_neg (by decide)]
    rfl
  | cons k ks =>
    simp only [sqlStatementText, fileSqlLines, sqlCanonical, h, List.map_cons,
      List.isEmpty_cons, Bool.false_eq_true, if_false, List.cons_append,
      List.nil_append, List.append_assoc]
    rw [List.filter_cons_of_neg (by decide), List.filter_cons_of_neg (by decide),
      List.filter_cons_of_neg (by simp [isCommentLine_header]),
      List.filter_cons_of_pos (by decide), List.filter_cons_of_neg (by decide),
      List.filter_cons_of_pos (by decide), List.filter_append]
    have hfo := filter_orLinesSemi_condLine (k :: ks)
    rw [List.map_cons] at hfo
    rw [hfo, strJoin, strJoin, strJoin_append, strJoin_orLinesSemi]
    apply String.ext
    simp only [String.data_append, List.append_assoc]
    rfl
set_option maxRecDepth 20000 in
/-- The console SQL text is exactly its chunk list reassembled with
newlines. -/
theorem consoleSql_eq_joinLines (recs : List RemovalRecord) :
    consoleSql recs = joinLines (consoleSqlLines recs) := by
  cases h : kidsRecs recs with
  | nil =>
    simp only [consoleSql, consoleSqlLines, h]
    rfl
  | cons k ks =>
    simp only [consoleSql, consoleSqlLines, h, List.map_cons, List.isEmpty_cons,
      Bool.false_eq_true, if_false, List.cons_append, List.nil_append,
      List.append_assoc]
    rw [joinLines, joinLines, joinLines_append,
      joinLines_orLines (condLine k) (List.map condLine ks)]
    simp only [joinLines]
    apply String.ext
    simp only [String.data_append, List.append_assoc]
    rfl

set_option maxRecDepth 20000 in
/-- The SQL file text is exactly its chunk list reassembled with
newlines. -/
theorem fileSql_eq_joinLines (recs : List RemovalRecord) (n : Nat) :
    fileSql recs n = joinLines (fileSqlLines recs n) := by
  cases h : kidsRecs recs with
  | nil =>
    simp only [fileSql, fileSqlLines, h, List.isEmpty_nil, if_true,
      List.cons_append, List.nil_append, List.append_assoc]
    simp only [joinLines]
    apply String.ext
    simp only [String.data_append, List.append_assoc]
    rfl
  | cons k ks =>
    simp only [fileSql, fileSqlLines, h, List.map_cons, List.isEmpty_cons,
      Bool.false_eq_true, if_false]
    rw [joinLines_append, joinLines_append]
    rw [show joinLines ("DELETE FROM menu_items WHERE" ::
        (orLinesSemi (condLine k :: List.map condLine ks) ++ [""])) =
      "DELETE FROM menu_items WHERE" ++ "\n" ++
        joinLines (orLinesSemi (condLine k :: List.map condLine ks) ++ [""]) from rfl]
    rw [joinLines_orLinesSemi (condLine k) (List.map condLine ks)]
    simp only [joinLines]
    apply String.ext
    simp only [String.data_append, List.append_assoc]
    rfl

/-- A pattern found after two prefixed chunks. -/
theorem hasSub_append2 (a b p rest : String) :
    hasSub (a ++ (b ++ (p ++ rest))) p = true := by
  unfold hasSub
  simp only [String.data_append]
  exact subSearch_append_left _ _ _
    (subSearch_append_left _ _ _
      (subSearch_of_strStarts _ _ (strStarts_self_append _ _)))

/-- C8: the generated SQL.  The console block and the SQL file decompose
into their chunk lists; dropping comment chunks, both carry exactly the same
SQL statement text, namely the kids-item DELETE over `(restaurant_name,
name)` pairs joined with `OR` (omitted entirely when no kids item was
found), then the threshold DELETE via the JSON-field cast, then the
verification `SELECT COUNT(*)`; and the file version carries the header
comment with the total removed count. -/
theorem C8_sql_generation (recs : List RemovalRecord) (n : Nat) :
    consoleSql recs = joinLines (consoleSqlLines recs) ∧
    fileSql recs n = joinLines (fileSqlLines recs n) ∧
    sqlStatementText (consoleSqlLines recs) = sqlStatementText (fileSqlLines recs n) ∧
    sqlStatementText (fileSqlLines recs n) = sqlCanonical recs ∧
    hasSub (fileSql recs n) ("-- Items to remove: " ++ toString n) = true := by
  refine ⟨consoleSql_eq_joinLines recs, fileSql_eq_joinLines recs n, ?_,
    sqlStatementText_file recs n, ?_⟩
  · rw [sqlStatementText_console, sqlStatementText_file]
  · simp only [fileSql, String.append_assoc]
    rw [← String.append_assoc "-- Items to remove: " (toString n)]
    exact hasSub_append2 _ _ _ _
